import Mathlib

/-!
Verification of the `squad` process-lifecycle coordinator (github.com/moeryomenko/squad).

This file gives a shallow embedding of the data model and operations of the
repository and proves the frozen claims about it.  The embedding follows the
current revision of the source: `Squad` and `Wait`/`shutdown`/`onStart` from
the second half of `src/squad.go`, the options and signal handler from the
first half of `src/unnamed/part_011`, and the delayed context from
`src/context.go`.  An older revision of the task group (first half of
`src/squad.go`, `sync.WaitGroup`-based) is embedded separately as a small-step
transition system for the temporal claim about it.

Durations and instants are modelled as `Nat` (nanosecond counts) except where
a difference of durations can be negative (`Int` there, as Go's
`time.Duration` is a signed 64-bit integer).  Go's `error` values are modelled
by `Option GoErr`, `nil` being `none`.
-/

namespace Squad

/-! ## Go errors and `errors.Join`

`GoErr` models a non-nil Go `error` value as produced in this repository:
either a leaf error carrying a message, or the `joinError` produced by the
standard library's `errors.Join`. -/

inductive GoErr : Type where
  | simple (msg : String) : GoErr
  | join (errs : List GoErr) : GoErr
deriving Repr

/-- The `Error()` string of a `GoErr`.  Go's `joinError.Error` returns the
single member's message when there is exactly one member, and otherwise
concatenates the members' messages separated by a newline; both branches
coincide with `String.intercalate "\n"`. -/
def GoErr.message : GoErr → String
  | .simple m => m
  | .join es => String.intercalate "\n" (es.attach.map (fun e => e.1.message))
decreasing_by
  have := List.sizeOf_lt_of_mem e.2
  simp only [GoErr.join.sizeOf_spec]
  omega

/-- `errors.Join(errs...)`: returns `nil` when every argument is `nil`, and
otherwise a `joinError` holding exactly the non-nil arguments in order
(no flattening, no deduplication). -/
def errorsJoin (errs : List (Option GoErr)) : Option GoErr :=
  match errs.filterMap id with
  | [] => none
  | es => some (.join es)

/-- The message of `context.DeadlineExceeded` (`ctx.Err()` after a
`context.WithTimeout` deadline passes). -/
def deadlineExceeded : GoErr := .simple "context deadline exceeded"

/-! ## Contexts

`Ctx` models a `context.Context` at the abstraction the claims need: the time
at which its done channel becomes ready (`doneAt`, `none` meaning it never
does), the value `Err()` returns when observed at a given instant, the
deadline, and the value lookup. -/

structure Ctx : Type where
  doneAt : Option Nat
  err : Nat → Option GoErr
  deadlineV : Option Nat
  value : Nat → Option Nat

/-- Whether the context's done channel is ready at instant `t`. -/
def Ctx.doneFiredAt (c : Ctx) (t : Nat) : Bool :=
  match c.doneAt with
  | none => false
  | some d => decide (d ≤ t)

/-- `WithDelay(ctx, delay)` from `src/context.go`: the returned
`delayedContext`'s goroutine waits for the parent's done channel, sleeps
`delay`, then fires (and closes) its own channel — so the child's done event
is the parent's done instant shifted by `delay`, and never fires when the
parent's never does.  `Err`, `Deadline` and `Value` delegate to the parent
verbatim. -/
def WithDelay (parent : Ctx) (delay : Nat) : Ctx where
  doneAt := parent.doneAt.map (fun t => t + delay)
  err := parent.err
  deadlineV := parent.deadlineV
  value := parent.value

/-- A concrete parent context used by witnesses: canceled at instant 2 with
the standard `context.Canceled` error. -/
def sampleParent : Ctx where
  doneAt := some 2
  err := fun t => if 2 ≤ t then some (.simple "context canceled") else none
  deadlineV := none
  value := fun _ => none

/-- `context.Background()`: never done, no error, no deadline, no values. -/
def backgroundCtx : Ctx where
  doneAt := none
  err := fun _ => none
  deadlineV := none
  value := fun _ => none

/-- `context.WithoutCancel(parent)`: never done, `Err()` always nil, no
deadline; values still delegate to the parent. -/
def withoutCancel (parent : Ctx) : Ctx where
  doneAt := none
  err := fun _ => none
  deadlineV := none
  value := parent.value

/-- `context.WithTimeout(parent, timeout)` created at instant `now`: done at
the earlier of the parent's done instant and `now + timeout`; `Err()` is the
parent's error if set, else deadline-exceeded once the deadline has passed. -/
def withTimeout (parent : Ctx) (now timeout : Nat) : Ctx where
  doneAt := some (match parent.doneAt with
    | none => now + timeout
    | some p => min p (now + timeout))
  err := fun t =>
    match parent.err t with
    | some e => some e
    | none => if now + timeout ≤ t then some deadlineExceeded else none
  deadlineV := some (match parent.deadlineV with
    | none => now + timeout
    | some p => min p (now + timeout))
  value := parent.value

/-! ## The shutdown sequencer and `Wait` (current revision, `src/squad.go`)

A registered shutdown function is represented by the pair of the instant
(relative to the start of the shutdown context) at which it would complete and
the error it would return; a task is represented by the error it returns. -/

/-- Modelled from the spec: `synx.ErrGroup.Wait` comes from the dependency
`github.com/moeryomenko/synx`, whose source is not part of this repository.
Per the spec the sequencer runs all functions and aggregates "their failures
and any timeout into the final result", never dropping one, so `Wait` composes
every goroutine's non-nil result in order. -/
def errGroupWait (results : List (Option GoErr)) : Option GoErr :=
  errorsJoin results

/-- Modelled from the spec: `synx.CtxGroup.Wait` comes from the dependency
`github.com/moeryomenko/synx`, whose source is not part of this repository.
Per the spec the task group "aggregates all task failures into one combined
error" and returns only after every task has returned; the blocking aspect is
captured by this function consuming the complete list of task results. -/
def ctxGroupWait (taskResults : List (Option GoErr)) : Option GoErr :=
  errorsJoin taskResults

/-- The body of one shutdown goroutine in `(*Squad).shutdown`
(`src/squad.go` second half, lines 327–334): a `select` racing the function's
completion (its channel is ready at instant `dur`) against the shutdown
context's done channel (ready at instant `timeout`).  If the context expires
first the goroutine returns `ctx.Err()` (deadline exceeded), otherwise the
function's own result.  When `dur = timeout` Go's `select` chooses between
the two ready channels nondeterministically; the theorems below only draw
conclusions for `dur ≠ timeout`. -/
def raceContribution (timeout dur : Nat) (res : Option GoErr) : Option GoErr :=
  if dur < timeout then res else some deadlineExceeded

/-- The per-function results collected by the shutdown sequencer's group. -/
def shutdownContributions (timeout : Nat) (fns : List (Nat × Option GoErr)) :
    List (Option GoErr) :=
  fns.map (fun p => raceContribution timeout p.1 p.2)

/-- `(*Squad).shutdown` (`src/squad.go` second half, lines 316–338): returns
nil immediately when no shutdown function is registered, otherwise runs all
of them in an error group under the timeout-bounded context and returns the
group's composed result. -/
def squadShutdown (timeout : Nat) (fns : List (Nat × Option GoErr)) : Option GoErr :=
  if fns.isEmpty then none
  else errGroupWait (shutdownContributions timeout fns)

/-- The context the shutdown sequencer runs under (`src/squad.go` line 321):
`context.WithTimeout(context.WithoutCancel(s.ctx), s.cancellationDelay)`,
created at instant `now`. -/
def shutdownCtx (runCtx : Ctx) (now timeout : Nat) : Ctx :=
  withTimeout (withoutCancel runCtx) now timeout

/-- `(*Squad).Wait` (`src/squad.go` second half, lines 298–308) on the core
path (no adapter has touched `s.err`, so it starts nil):
`err := s.wg.Wait(); if err != nil { s.err = errors.Join(s.err, err) }`, then
the same for `s.shutdown()`, then `return s.err`. -/
def squadWait (taskResults : List (Option GoErr)) (timeout : Nat)
    (shFns : List (Nat × Option GoErr)) : Option GoErr :=
  let errTasks := ctxGroupWait taskResults
  let s1 : Option GoErr :=
    match errTasks with
    | none => none
    | some e => errorsJoin [none, some e]
  match squadShutdown timeout shFns with
  | none => s1
  | some e => errorsJoin [s1, some e]

/-! ## Options, the signal handler delay, and the constructor
(`src/unnamed/part_011` first half, `src/squad.go` second half) -/

/-- The signal-handler configuration (`shutdown` struct,
`src/unnamed/part_011` lines 103–106).  `time.Duration` is a signed 64-bit
integer, so both fields are `Int` (nanoseconds). -/
structure ShutdownCfg : Type where
  gracefulPeriod : Int
  shutdownTimeout : Int
deriving DecidableEq, Repr

/-- `(*shutdown).delay` (`src/unnamed/part_011` lines 108–110): the raw,
unclamped difference. -/
def ShutdownCfg.delay (s : ShutdownCfg) : Int :=
  s.gracefulPeriod - s.shutdownTimeout

/-- The wall-clock time `<-time.After(d)` actually blocks for: a Go timer
with a non-positive duration fires immediately, so a negative `d` waits 0. -/
def timeAfterWait (d : Int) : Int := max d 0

/-- The wait `handleSignals` (`src/unnamed/part_011` lines 87–101) performs
between the first termination signal (the signal ctx becoming done) and its
call to `cancel()` on the group's root context: `<-time.After(config.delay())`. -/
def handleSignalsWait (cfg : ShutdownCfg) : Int :=
  timeAfterWait cfg.delay

def defaultCancellationDelay : Int := 2000000000

def defaultContextGracePeriod : Int := 30000000000

/-- The `ShutdownOpt` functional options (`src/unnamed/part_011` lines 17–36). -/
inductive SignalOpt : Type where
  | withGracefulPeriod (period : Int) : SignalOpt
  | withShutdownTimeout (timeout : Int) : SignalOpt
  | withShutdownInGracePeriod (timeout : Int) : SignalOpt
deriving DecidableEq, Repr

def applySignalOpt (s : ShutdownCfg) : SignalOpt → ShutdownCfg
  | .withGracefulPeriod p => { s with gracefulPeriod := p }
  | .withShutdownTimeout t => { s with shutdownTimeout := t }
  | .withShutdownInGracePeriod t => { gracefulPeriod := t, shutdownTimeout := t }

/-- The config `WithSignalHandler` builds (`src/unnamed/part_011` lines 42–50)
before arming the handler: defaults, then the sub-options in order. -/
def signalHandlerConfig (opts : List SignalOpt) : ShutdownCfg :=
  opts.foldl applySignalOpt
    { gracefulPeriod := defaultContextGracePeriod,
      shutdownTimeout := defaultCancellationDelay }

/-- A bootstrap function, identified by a tag and the error it returns when
invoked; a `nil` entry in an option's argument list is `none`. -/
structure BootFn : Type where
  ident : Nat
  result : Option GoErr
deriving Repr

/-- The loop body of `WithBootstrap` (`src/unnamed/part_011` lines 59–68):
nil entries are skipped, the rest are appended to `s.bootstraps`. -/
def withBootstrapAdds : List (Option BootFn) → List BootFn
  | [] => []
  | none :: rest => withBootstrapAdds rest
  | some fn :: rest => fn :: withBootstrapAdds rest

/-- The `Option` functional options applied by `New`
(`src/unnamed/part_011` first half). -/
inductive SquadOpt : Type where
  | withSignalHandler (sopts : List SignalOpt) : SquadOpt
  | withBootstrap (fns : List (Option BootFn)) : SquadOpt
  | withCloses (fns : List Nat) : SquadOpt
  | withSubsystem (initFn : Option BootFn) (closeFn : Nat) : SquadOpt
deriving Repr

/-- Whether an option is a `WithSignalHandler` option. -/
def SquadOpt.isSignalHandler : SquadOpt → Bool
  | .withSignalHandler _ => true
  | _ => false

/-- The fields of the `Squad` under construction that the options touch. -/
structure SquadConfig : Type where
  cancellationDelay : Int
  bootstraps : List (Option BootFn)
  cancellationFuncs : List Nat
  signalHandlerStarted : Bool
deriving Repr

def initialSquadConfig : SquadConfig where
  cancellationDelay := defaultCancellationDelay
  bootstraps := []
  cancellationFuncs := []
  signalHandlerStarted := false

/-- Applying one option (`src/unnamed/part_011` first half).
`withSignalHandler` (lines 51–54) sets the cancellation delay and calls
`handleSignals` on the spot, so the signal-watching goroutine is started
during option application; `withBootstrap` appends the non-nil entries;
`withSubsystem` (lines 80–85) appends `initFn` unconditionally, nil or not. -/
def applyOpt (s : SquadConfig) : SquadOpt → SquadConfig
  | .withSignalHandler sopts =>
      { s with cancellationDelay := (signalHandlerConfig sopts).shutdownTimeout,
               signalHandlerStarted := true }
  | .withBootstrap fns =>
      { s with bootstraps := s.bootstraps ++ (withBootstrapAdds fns).map some }
  | .withCloses fns =>
      { s with cancellationFuncs := s.cancellationFuncs ++ fns }
  | .withSubsystem initFn closeFn =>
      { s with bootstraps := s.bootstraps ++ [initFn],
               cancellationFuncs := s.cancellationFuncs ++ [closeFn] }

/-- The goroutines `onStart` launches (`src/squad.go` second half, lines
350–361): none when the list is empty, otherwise one `group.Go(fn)` per
entry of the list — including `nil` entries, which this revision does not
filter. -/
def onStartGoroutines (fns : List (Option BootFn)) : List (Option BootFn) :=
  if fns.isEmpty then [] else fns

/-- The result of `onStart`: `.ok` with the group's composed result, or
`.error ()` modelling the run-time panic raised when a launched `nil`
function entry is invoked. -/
def onStartRun (fns : List (Option BootFn)) : Except Unit (Option GoErr) :=
  if fns.isEmpty then .ok none
  else if fns.any (fun f => f.isNone) then .error ()
  else .ok (errGroupWait (fns.map (fun f =>
    match f with
    | none => none
    | some fn => fn.result)))

/-- What `New` produces and starts. -/
structure NewOutcome : Type where
  groupReturned : Bool
  err : Option GoErr
  tasksStarted : Nat
  signalHandlerStarted : Bool
deriving Repr

/-- `New` (`src/squad.go` second half, lines 233–251): create the root
context, apply the options in order, then run `onStart` over the registered
bootstraps; on a bootstrap error return `(nil, err)`.  `New` itself launches
no task — tasks come from later `Run`/`RunGracefully`/`RunServer` calls —
so `tasksStarted = 0` on every path.  The outer `none` models the process
crash when a `nil` bootstrap entry reaches `onStart`. -/
def newSquad (opts : List SquadOpt) : Option NewOutcome :=
  let cfg := opts.foldl applyOpt initialSquadConfig
  match onStartRun cfg.bootstraps with
  | .error _ => none
  | .ok e => some { groupReturned := e.isNone, err := e, tasksStarted := 0,
                    signalHandlerStarted := cfg.signalHandlerStarted }

/-! ## Small-step model of the `sync.WaitGroup` task group
(first half of `src/squad.go`, lines 36–66)

Each task launched by `RunGracefully` runs
`defer { s.closeOnce.Do(s.cancel); s.wg.Done() }; backgroudFn(s.ctx)`.
A task is therefore in one of three phases: still running `backgroudFn`,
returned from it with the deferred block pending, or finished (deferred
block executed, `wg.Done` counted).  `Wait` is `s.wg.Wait()`: it can return
only once every task has executed `wg.Done`. -/

inductive TaskPhase : Type where
  | running : TaskPhase
  | returned : TaskPhase
  | finished : TaskPhase
deriving DecidableEq, Repr

structure SquadV1 : Type where
  tasks : List TaskPhase
  canceled : Bool
  waitReturned : Bool
deriving DecidableEq, Repr

/-- The group right after `RunGracefully` has launched `n` tasks: every
`backgroudFn` still running, root context not canceled, `Wait` blocked. -/
def initV1 (n : Nat) : SquadV1 where
  tasks := List.replicate n .running
  canceled := false
  waitReturned := false

/-- One interleaved step of the v1 squad.
`taskReturn`: `backgroudFn` of task `i` returns (its error, if any, is
appended under the mutex — irrelevant to this claim).
`taskDefer`: the deferred block of task `i` runs: `closeOnce.Do(s.cancel)`
cancels the root context (idempotently) and `wg.Done` marks the task counted.
`waitReturn`: `s.wg.Wait()` unblocks, which the wait-group counter permits
only when every launched task has executed `wg.Done`. -/
inductive StepV1 : SquadV1 → SquadV1 → Prop where
  | taskReturn (s : SquadV1) (i : Nat) (h : s.tasks.get? i = some .running) :
      StepV1 s { s with tasks := s.tasks.set i .returned }
  | taskDefer (s : SquadV1) (i : Nat) (h : s.tasks.get? i = some .returned) :
      StepV1 s { s with tasks := s.tasks.set i .finished, canceled := true }
  | waitReturn (s : SquadV1) (h : ∀ p ∈ s.tasks, p = TaskPhase.finished) :
      StepV1 s { s with waitReturned := true }

inductive ReachableV1 (n : Nat) : SquadV1 → Prop where
  | init : ReachableV1 n (initV1 n)
  | step {s s' : SquadV1} : ReachableV1 n s → StepV1 s s' → ReachableV1 n s'

/-! ## Phase model of the current `Wait` (second half of `src/squad.go`)

`Wait` is sequential: `s.wg.Wait()` first, `s.shutdown()` second.  The
shutdown goroutines therefore cannot exist before `wg.Wait` has returned,
and `wg.Wait` (the `synx.CtxGroup` barrier) returns only once every task
has returned. -/

inductive WaitPhase : Type where
  | runPhase : WaitPhase
  | drained : WaitPhase
  | shutdownPhase : WaitPhase
deriving DecidableEq, Repr

structure SquadV2 : Type where
  tasksRunning : Nat
  phase : WaitPhase
  shutdownStarted : Bool
deriving DecidableEq, Repr

def initV2 (n : Nat) : SquadV2 where
  tasksRunning := n
  phase := .runPhase
  shutdownStarted := false

/-- One interleaved step of a `Wait` call on the current squad.
`taskReturn`: one more registered task returns.
`wgWaitReturn`: `s.wg.Wait()` (line 299) returns; modelled from the spec,
`synx.CtxGroup.Wait` being outside this repository: it "is guaranteed not to
start until the Task Group's Wait has observed every task's return", i.e. it
unblocks only when no task is still running.
`shutdownBegin`: `Wait` proceeds to `s.shutdown()` (line 303), which launches
the shutdown goroutines — only possible after `wgWaitReturn`. -/
inductive StepV2 : SquadV2 → SquadV2 → Prop where
  | taskReturn (s : SquadV2) (k : Nat) (h : s.tasksRunning = k + 1) :
      StepV2 s { s with tasksRunning := k }
  | wgWaitReturn (s : SquadV2) (h₁ : s.phase = .runPhase) (h₂ : s.tasksRunning = 0) :
      StepV2 s { s with phase := .drained }
  | shutdownBegin (s : SquadV2) (h : s.phase = .drained) :
      StepV2 s { s with phase := .shutdownPhase, shutdownStarted := true }

inductive ReachableV2 (n : Nat) : SquadV2 → Prop where
  | init : ReachableV2 n (initV2 n)
  | step {s s' : SquadV2} : ReachableV2 n s → StepV2 s s' → ReachableV2 n s'

/-! ## Basic lemmas -/

theorem GoErr.message_join (es : List GoErr) :
    (GoErr.join es).message = String.intercalate "\n" (es.map GoErr.message) := by
  unfold GoErr.message
  congr 1
  simp [List.attach, List.attachWith, List.map_pmap]

theorem errorsJoin_eq_none (errs : List (Option GoErr))
    (h : ∀ x ∈ errs, x = none) : errorsJoin errs = none := by
  have : errs.filterMap id = [] := by
    rw [List.filterMap_eq_nil_iff]
    intro a ha
    simp [h a ha]
  simp [errorsJoin, this]

theorem errorsJoin_eq_some (errs : List (Option GoErr))
    (h : errs.filterMap id ≠ []) :
    errorsJoin errs = some (.join (errs.filterMap id)) := by
  unfold errorsJoin
  rcases hfm : errs.filterMap id with _ | ⟨e, es⟩
  · exact absurd hfm h
  · rfl

/-- Invariant of the v1 squad: a task whose goroutine has run its deferred
block implies the root context is canceled, and a returned `Wait` implies
every task is finished. -/
theorem reachableV1_invariant (n : Nat) (s : SquadV1) (h : ReachableV1 n s) :
    (TaskPhase.finished ∈ s.tasks → s.canceled = true)
  ∧ (s.waitReturned = true → ∀ p ∈ s.tasks, p = TaskPhase.finished) := by
  induction h with
  | init =>
    constructor
    · intro hmem
      rcases List.eq_of_mem_replicate hmem
    · intro hw
      simp [initV1] at hw
  | step hr hs ih =>
    rename_i s _
    cases hs with
    | taskReturn i hi =>
      constructor
      · intro hmem
        rcases List.mem_or_eq_of_mem_set hmem with hmem' | heq
        · exact ih.1 hmem'
        · exact absurd heq (by simp)
      · intro hw
        exfalso
        have hmem : TaskPhase.running ∈ s.tasks := List.get?_mem hi
        have := ih.2 hw TaskPhase.running hmem
        simp at this
    | taskDefer i hi =>
      constructor
      · intro _
        rfl
      · intro hw
        exfalso
        have hmem : TaskPhase.returned ∈ s.tasks := List.get?_mem hi
        have := ih.2 hw TaskPhase.returned hmem
        simp at this
    | waitReturn hall =>
      exact ⟨ih.1, fun _ => hall⟩

/-- Invariant of the current `Wait`: once the shutdown goroutines exist no
task is still running, and past the `wg.Wait` barrier no task is still
running. -/
theorem reachableV2_invariant (n : Nat) (s : SquadV2) (h : ReachableV2 n s) :
    (s.shutdownStarted = true → s.tasksRunning = 0)
  ∧ (s.phase ≠ WaitPhase.runPhase → s.tasksRunning = 0) := by
  induction h with
  | init =>
    constructor
    · intro hw
      simp [initV2] at hw
    · intro hw
      simp [initV2] at hw
  | step hr hs ih =>
    rename_i sPre _
    cases hs with
    | taskReturn k hk =>
      constructor
      · intro hst
        have := ih.1 hst
        omega
      · intro hph
        have := ih.2 hph
        omega
    | wgWaitReturn h1 h2 =>
      exact ⟨fun _ => h2, fun _ => h2⟩
    | shutdownBegin hph =>
      have h0 : sPre.tasksRunning = 0 := ih.2 (by simp [hph])
      exact ⟨fun _ => h0, fun _ => h0⟩

theorem intercalate_one (s m : String) : String.intercalate s [m] = m := by
  simp [String.intercalate, String.intercalate.go]

theorem intercalate_two (s a b : String) :
    String.intercalate s [a, b] = a ++ s ++ b := by
  simp [String.intercalate, String.intercalate.go]

/-! ## The claims -/

/-- C1.  In the `sync.WaitGroup` squad (`src/squad.go` first half): whenever
any task function has returned, cancelling the root context is that
goroutine's next action (the deferred `closeOnce.Do(s.cancel)`, conjunct 4);
any task whose goroutine has completed implies the root context is canceled
(conjunct 1, cancellation precedes the task's `wg.Done`); and `Wait` does
not return until every registered task function has returned (conjuncts
2 and 3). -/
theorem c1_any_return_cancels_and_wait_drains (n : Nat) (s : SquadV1)
    (h : ReachableV1 n s) :
    (TaskPhase.finished ∈ s.tasks → s.canceled = true)
  ∧ (s.waitReturned = true → ∀ p ∈ s.tasks, p = TaskPhase.finished)
  ∧ (s.waitReturned = true → s.tasks ≠ [] → s.canceled = true)
  ∧ (∀ i, s.tasks.get? i = some TaskPhase.returned →
      StepV1 s { s with tasks := s.tasks.set i TaskPhase.finished,
                        canceled := true }) := by
  refine ⟨(reachableV1_invariant n s h).1, (reachableV1_invariant n s h).2, ?_, ?_⟩
  · intro hw hne
    rcases List.exists_mem_of_ne_nil s.tasks hne with ⟨p, hp⟩
    have hfin := (reachableV1_invariant n s h).2 hw p hp
    exact (reachableV1_invariant n s h).1 (hfin ▸ hp)
  · intro i hi
    exact StepV1.taskDefer s i hi

/-- Witness for C1: a complete concrete run of one task. -/
theorem c1_witness :
    ReachableV1 1 { tasks := [TaskPhase.finished], canceled := true,
                    waitReturned := true }
  ∧ (∀ p ∈ [TaskPhase.finished], p = TaskPhase.finished) := by
  have hreach : ReachableV1 1 { tasks := [TaskPhase.finished], canceled := true,
                                waitReturned := true } :=
    ReachableV1.step
      (ReachableV1.step
        (ReachableV1.step (ReachableV1.init)
          (StepV1.taskReturn (initV1 1) 0 rfl))
        (StepV1.taskDefer _ 0 rfl))
      (StepV1.waitReturn _ (by decide))
  exact ⟨hreach, (c1_any_return_cancels_and_wait_drains 1 _ hreach).2.1 rfl⟩

/-- C2.  In the current squad (`src/squad.go` second half), no shutdown
function begins executing before every registered task function has
returned: in every reachable state of a `Wait` call, the shutdown goroutines
having been launched implies no task is still running. -/
theorem c2_shutdown_starts_after_all_tasks (n : Nat) (s : SquadV2)
    (h : ReachableV2 n s) :
    (s.shutdownStarted = true → s.tasksRunning = 0)
  ∧ (s.phase = WaitPhase.shutdownPhase → s.tasksRunning = 0) := by
  refine ⟨(reachableV2_invariant n s h).1, fun hp => ?_⟩
  exact (reachableV2_invariant n s h).2 (by simp [hp])

/-- Witness for C2: a complete concrete run of one task followed by the
shutdown phase. -/
theorem c2_witness :
    ReachableV2 1 { tasksRunning := 0, phase := WaitPhase.shutdownPhase,
                    shutdownStarted := true }
  ∧ ({ tasksRunning := 0, phase := WaitPhase.shutdownPhase,
       shutdownStarted := true } : SquadV2).tasksRunning = 0 := by
  have hreach : ReachableV2 1 { tasksRunning := 0,
                                phase := WaitPhase.shutdownPhase,
                                shutdownStarted := true } :=
    ReachableV2.step
      (ReachableV2.step
        (ReachableV2.step (ReachableV2.init)
          (StepV2.taskReturn (initV2 1) 0 rfl))
        (StepV2.wgWaitReturn _ rfl rfl))
      (StepV2.shutdownBegin _ rfl)
  exact ⟨hreach, (c2_shutdown_starts_after_all_tasks 1 _ hreach).1 rfl⟩

/-- C4.  `WithDelay(parent, d)` fires its done event (the unique instant its
channel becomes ready, modelled by `doneAt`) exactly `d` after the parent's
done event; when the parent never fires, the child never fires; and `Err`,
`Deadline` and `Value` all delegate to the parent. -/
theorem c4_withDelay_shifts_done_and_delegates (parent : Ctx) (d : Nat) :
    (∀ p, parent.doneAt = some p → (WithDelay parent d).doneAt = some (p + d))
  ∧ (parent.doneAt = none → (WithDelay parent d).doneAt = none)
  ∧ (WithDelay parent d).err = parent.err
  ∧ (WithDelay parent d).deadlineV = parent.deadlineV
  ∧ (WithDelay parent d).value = parent.value := by
  refine ⟨?_, ?_, rfl, rfl, rfl⟩
  · intro p hp
    simp [WithDelay, hp]
  · intro hp
    simp [WithDelay, hp]

/-- Witness for C4 at the sample parent (canceled at instant 2) and at a
never-canceled parent, both with delay 7. -/
theorem c4_witness :
    (WithDelay sampleParent 7).doneAt = some 9
  ∧ (WithDelay backgroundCtx 7).doneAt = none := by
  constructor
  · exact (c4_withDelay_shifts_done_and_delegates sampleParent 7).1 2 rfl
  · exact (c4_withDelay_shifts_done_and_delegates backgroundCtx 7).2.1 rfl

/-- C10.  For a positive delay there is an instant (the parent's own done
instant) at which the parent's done event has fired and the delayed
context's `Err()` already returns the parent's non-nil error, while the
delayed done event has not yet fired: `Err() ≠ nil` does not imply the done
channel is ready. -/
theorem c10_err_nonnil_before_done (parent : Ctx) (d p : Nat) (hd : 0 < d)
    (hp : parent.doneAt = some p) (herr : parent.err p ≠ none) :
    ∃ t, parent.doneFiredAt t = true
       ∧ (WithDelay parent d).doneFiredAt t = false
       ∧ (WithDelay parent d).err t = parent.err t
       ∧ (WithDelay parent d).err t ≠ none := by
  refine ⟨p, ?_, ?_, rfl, herr⟩
  · unfold Ctx.doneFiredAt
    rw [hp]
    simp
  · have hdone : (WithDelay parent d).doneAt = some (p + d) := by
      show parent.doneAt.map (fun t => t + d) = some (p + d)
      rw [hp]
      rfl
    unfold Ctx.doneFiredAt
    rw [hdone]
    simp only [decide_eq_false_iff_not, not_le]
    omega

/-- Witness for C10: the sample parent (canceled at instant 2) with delay 5. -/
theorem c10_witness :
    ∃ t, sampleParent.doneFiredAt t = true
       ∧ (WithDelay sampleParent 5).doneFiredAt t = false
       ∧ (WithDelay sampleParent 5).err t = sampleParent.err t
       ∧ (WithDelay sampleParent 5).err t ≠ none :=
  c10_err_nonnil_before_done sampleParent 5 2 (by decide) rfl (by simp [sampleParent])

/-- C6.  The delay the signal handler waits between the first termination
signal and cancelling the group's root context is
`gracefulPeriod − shutdownTimeout`, treated as zero when that difference is
negative (Go's `time.After` fires immediately on a non-positive duration). -/
theorem c6_signal_cancellation_delay (cfg : ShutdownCfg) :
    handleSignalsWait cfg =
      (if cfg.gracefulPeriod - cfg.shutdownTimeout < 0 then 0
       else cfg.gracefulPeriod - cfg.shutdownTimeout)
  ∧ (cfg.shutdownTimeout ≤ cfg.gracefulPeriod →
      handleSignalsWait cfg = cfg.gracefulPeriod - cfg.shutdownTimeout) := by
  unfold handleSignalsWait timeAfterWait ShutdownCfg.delay
  constructor
  · by_cases h : cfg.gracefulPeriod - cfg.shutdownTimeout < 0
    · rw [if_pos h]
      exact max_eq_right h.le
    · rw [if_neg h]
      exact max_eq_left (not_lt.mp h)
  · intro hle
    exact max_eq_left (by omega)

/-- Witness for C6: grace period 30, shutdown timeout 2 waits 28;
grace period 1, shutdown timeout 5 waits 0. -/
theorem c6_witness :
    handleSignalsWait { gracefulPeriod := 30, shutdownTimeout := 2 } = 28
  ∧ handleSignalsWait { gracefulPeriod := 1, shutdownTimeout := 5 } = 0 := by
  constructor
  · have h := (c6_signal_cancellation_delay
      { gracefulPeriod := 30, shutdownTimeout := 2 }).2 (by norm_num)
    simpa using h
  · have h := (c6_signal_cancellation_delay
      { gracefulPeriod := 1, shutdownTimeout := 5 }).1
    simpa using h

/-- C9.  With no registered shutdown function the sequencer returns nil
immediately; otherwise it runs under
`WithTimeout(WithoutCancel(s.ctx), timeout)`: a context whose done instant
is exactly `now + timeout` and whose error depends only on that deadline —
both are the same for every possible run context, so cancelling the run
context never cancels the shutdown context. -/
theorem c9_shutdown_ctx_detached_and_bounded (runCtx : Ctx) (now timeout : Nat)
    (fns : List (Nat × Option GoErr)) :
    (fns = [] → squadShutdown timeout fns = none)
  ∧ (shutdownCtx runCtx now timeout).doneAt = some (now + timeout)
  ∧ (∀ t, (shutdownCtx runCtx now timeout).err t =
      (if now + timeout ≤ t then some deadlineExceeded else none))
  ∧ (∀ runCtx' : Ctx,
      (shutdownCtx runCtx' now timeout).doneAt
        = (shutdownCtx runCtx now timeout).doneAt
      ∧ (shutdownCtx runCtx' now timeout).err
        = (shutdownCtx runCtx now timeout).err) := by
  refine ⟨?_, rfl, fun t => rfl, fun c => ⟨rfl, rfl⟩⟩
  intro h
  simp [squadShutdown, h]

/-- Witness for C9: empty shutdown set under timeout 5, and the sequencer
context built at instant 0 over the sample (canceled) run context. -/
theorem c9_witness :
    squadShutdown 5 ([] : List (Nat × Option GoErr)) = none
  ∧ (shutdownCtx sampleParent 0 5).doneAt = some 5 := by
  have h := c9_shutdown_ctx_detached_and_bounded sampleParent 0 5
    ([] : List (Nat × Option GoErr))
  exact ⟨h.1 rfl, h.2.1⟩

/-- C5.  The group's aggregated-error composition (`errors.Join`): nil
composed with nil is nil; nil composed with an error yields that error
(same non-nilness and same `Error()` message, in both orders); a run in
which every task and every shutdown function returns nil makes `Wait`
return nil; and the composition of non-nil errors is a joined error whose
message enumerates every contributing error's message in order, without
deduplication. -/
theorem c5_join_identity_and_enumeration :
    (errorsJoin [none, none] = none)
  ∧ (∀ e : GoErr, (errorsJoin [none, some e]).isSome
      ∧ (errorsJoin [none, some e]).map GoErr.message = some e.message
      ∧ (errorsJoin [some e, none]).map GoErr.message = some e.message)
  ∧ (∀ (taskResults : List (Option GoErr)) (timeout : Nat)
        (shFns : List (Nat × Option GoErr)),
      (∀ x ∈ taskResults, x = none) →
      (∀ p ∈ shFns, p.1 < timeout ∧ p.2 = none) →
      squadWait taskResults timeout shFns = none)
  ∧ (∀ errs : List (Option GoErr), errs.filterMap id ≠ [] →
      ∃ e, errorsJoin errs = some e
        ∧ e.message = String.intercalate "\n"
            ((errs.filterMap id).map GoErr.message)) := by
  refine ⟨rfl, ?_, ?_, ?_⟩
  · intro e
    refine ⟨rfl, ?_, ?_⟩
    · show some (GoErr.join [e]).message = some e.message
      rw [GoErr.message_join]
      simp [intercalate_one]
    · show some (GoErr.join [e]).message = some e.message
      rw [GoErr.message_join]
      simp [intercalate_one]
  · intro tr timeout shFns htr hsh
    have h1 : ctxGroupWait tr = none := errorsJoin_eq_none tr htr
    have h2 : squadShutdown timeout shFns = none := by
      unfold squadShutdown
      by_cases hemp : shFns.isEmpty
      · simp [hemp]
      · simp only [hemp, if_neg, Bool.false_eq_true, not_false_eq_true]
        unfold errGroupWait
        apply errorsJoin_eq_none
        intro x hx
        unfold shutdownContributions at hx
        rcases List.mem_map.mp hx with ⟨p, hp, rfl⟩
        have hcond := hsh p hp
        simp [raceContribution, hcond.1, hcond.2]
    unfold squadWait
    rw [h1, h2]
  · intro errs hne
    exact ⟨_, errorsJoin_eq_some errs hne, by rw [GoErr.message_join]⟩

/-- Witness for C5: a single error survives composition with nil with its
message intact; an all-nil run of one task and one in-time nil shutdown
function yields nil from `Wait`; two equal errors are both enumerated. -/
theorem c5_witness :
    (errorsJoin [none, some (GoErr.simple "boom")]).map GoErr.message = some "boom"
  ∧ squadWait [none] 10 [(1, none)] = none
  ∧ (∃ e, errorsJoin [some (GoErr.simple "a"), none, some (GoErr.simple "a")] = some e
      ∧ e.message = "a" ++ "\n" ++ "a") := by
  refine ⟨?_, ?_, ?_⟩
  · have h := (c5_join_identity_and_enumeration.2.1 (GoErr.simple "boom")).2.1
    simpa [GoErr.message] using h
  · exact c5_join_identity_and_enumeration.2.2.1 [none] 10 [(1, none)]
      (by simp) (by simp)
  · rcases c5_join_identity_and_enumeration.2.2.2
      [some (GoErr.simple "a"), none, some (GoErr.simple "a")] (by simp) with ⟨e, he, hm⟩
    refine ⟨e, he, ?_⟩
    rw [hm]
    simp [GoErr.message, intercalate_two]

/-- C3.  With a non-empty set of shutdown functions: every function that
does not finish within the shutdown timeout contributes the
deadline-exceeded condition to the collected results, every function that
finishes in time contributes its own result, the sequencer composes exactly
these contributions, and a non-nil composition — whose message enumerates
every non-nil contribution — reaches the error returned by `Wait` (its
message ends with that enumeration). -/
theorem c3_timeout_and_sibling_contributions (timeout : Nat)
    (fns : List (Nat × Option GoErr)) (taskResults : List (Option GoErr))
    (hne : fns ≠ []) :
    (∀ p ∈ fns, timeout < p.1 →
        some deadlineExceeded ∈ shutdownContributions timeout fns)
  ∧ (∀ p ∈ fns, p.1 < timeout → p.2 ∈ shutdownContributions timeout fns)
  ∧ squadShutdown timeout fns = errorsJoin (shutdownContributions timeout fns)
  ∧ (∀ e, errorsJoin (shutdownContributions timeout fns) = some e →
        e.message = String.intercalate "\n"
          (((shutdownContributions timeout fns).filterMap id).map GoErr.message)
      ∧ ∃ pre, (squadWait taskResults timeout fns).map GoErr.message
          = some (pre ++ e.message)) := by
  have hemp : fns.isEmpty = false := by
    cases fns with
    | nil => exact absurd rfl hne
    | cons a l => rfl
  have hsq : squadShutdown timeout fns
      = errorsJoin (shutdownContributions timeout fns) := by
    unfold squadShutdown errGroupWait
    rw [hemp]
    rfl
  refine ⟨?_, ?_, hsq, ?_⟩
  · intro p hp hlt
    refine List.mem_map.mpr ⟨p, hp, ?_⟩
    unfold raceContribution
    rw [if_neg (by omega)]
  · intro p hp hlt
    refine List.mem_map.mpr ⟨p, hp, ?_⟩
    unfold raceContribution
    rw [if_pos hlt]
  · intro e he
    constructor
    · rcases hf : (shutdownContributions timeout fns).filterMap id with _ | ⟨x, xs⟩
      · simp [errorsJoin, hf] at he
      · have he' : e = GoErr.join (x :: xs) := by
          have hj := errorsJoin_eq_some (shutdownContributions timeout fns)
            (by rw [hf]; simp)
          rw [hj, hf] at he
          exact (Option.some_injective _ he).symm
        simp only [he', GoErr.message_join, hf]
    · have hsd : squadShutdown timeout fns = some e := hsq.trans he
      unfold squadWait
      rw [hsd]
      rcases hct : ctxGroupWait taskResults with _ | a
      · refine ⟨"", ?_⟩
        show some (GoErr.join [e]).message = some ("" ++ e.message)
        rw [GoErr.message_join]
        simp [intercalate_one]
      · refine ⟨a.message ++ "\n", ?_⟩
        show some (GoErr.join [GoErr.join [a], e]).message
          = some (a.message ++ "\n" ++ e.message)
        rw [GoErr.message_join]
        simp [GoErr.message_join, intercalate_one, intercalate_two]

/-- Witness for C3: shutdown timeout 10, one function finishing at instant 3
with error "a", one needing instant 20 (over the timeout). -/
theorem c3_witness :
    some deadlineExceeded ∈
      shutdownContributions 10 [(3, some (GoErr.simple "a")), (20, some (GoErr.simple "b"))]
  ∧ some (GoErr.simple "a") ∈
      shutdownContributions 10 [(3, some (GoErr.simple "a")), (20, some (GoErr.simple "b"))]
  ∧ (∃ pre,
      (squadWait [] 10 [(3, some (GoErr.simple "a")), (20, some (GoErr.simple "b"))]).map
          GoErr.message
        = some (pre ++ (GoErr.join [GoErr.simple "a", deadlineExceeded]).message)) := by
  have h := c3_timeout_and_sibling_contributions 10
    [(3, some (GoErr.simple "a")), (20, some (GoErr.simple "b"))] [] (by simp)
  refine ⟨?_, ?_, ?_⟩
  · exact h.1 (20, some (GoErr.simple "b")) (by simp) (by decide)
  · exact h.2.1 (3, some (GoErr.simple "a")) (by simp) (by decide)
  · exact (h.2.2.2 (GoErr.join [GoErr.simple "a", deadlineExceeded]) rfl).2

/-- The signal handler is started by the option fold exactly when it was
already started or a `WithSignalHandler` option occurs in the list. -/
theorem foldl_applyOpt_signalHandler (opts : List SquadOpt) (c : SquadConfig) :
    (opts.foldl applyOpt c).signalHandlerStarted
      = (c.signalHandlerStarted || opts.any SquadOpt.isSignalHandler) := by
  induction opts generalizing c with
  | nil => simp
  | cons o rest ih =>
    cases o with
    | withSignalHandler sopts => simp [applyOpt, ih, SquadOpt.isSignalHandler]
    | withBootstrap fns => simp [applyOpt, ih, SquadOpt.isSignalHandler]
    | withCloses fns => simp [applyOpt, ih, SquadOpt.isSignalHandler]
    | withSubsystem initFn closeFn => simp [applyOpt, ih, SquadOpt.isSignalHandler]

/-- C7 fails on the current runner (`onStart`, `src/squad.go` second half):
it launches every entry of a non-empty list, so a `nil` entry is launched
(and hence invoked) rather than skipped; `[none]` is a concrete
counterexample to "the launched goroutines are exactly the non-nil
entries". -/
theorem c7_counterexample :
    ¬ (∀ fns : List (Option BootFn),
        onStartGoroutines fns = (withBootstrapAdds fns).map some) := by
  intro h
  have h0 := h [none]
  simp [onStartGoroutines, withBootstrapAdds] at h0

/-- C7 amended: for an empty list `onStart` returns nil immediately with no
goroutine created; for a non-empty list it launches every entry under the
one shared group context, `nil` entries included — invoking such an entry is
the nil-function panic; the nil filtering the original claim describes
happens earlier, at registration, in `WithBootstrap`. -/
theorem c7_amended_runner_launches_every_entry (fns : List (Option BootFn)) :
    (onStartGoroutines [] = ([] : List (Option BootFn))
      ∧ onStartRun [] = .ok none)
  ∧ (fns ≠ [] → onStartGoroutines fns = fns)
  ∧ withBootstrapAdds fns = fns.filterMap id
  ∧ (none ∈ fns → onStartRun fns = .error ()) := by
  refine ⟨⟨rfl, rfl⟩, ?_, ?_, ?_⟩
  · intro hne
    cases fns with
    | nil => exact absurd rfl hne
    | cons a l => rfl
  · induction fns with
    | nil => rfl
    | cons a l ih =>
      cases a with
      | none => simpa [withBootstrapAdds] using ih
      | some fn => simpa [withBootstrapAdds] using ih
  · intro hmem
    have hne : fns.isEmpty = false := by
      cases fns with
      | nil => simp at hmem
      | cons a l => rfl
    have hany : fns.any (fun f => f.isNone) = true := by
      rw [List.any_eq_true]
      exact ⟨none, hmem, rfl⟩
    unfold onStartRun
    rw [hne, hany]
    rfl

/-- Witness for C7 (amended): a list holding one real function and one nil
entry. -/
theorem c7_witness :
    onStartGoroutines [some { ident := 1, result := none }, none]
      = [some { ident := 1, result := none }, none]
  ∧ onStartRun [some { ident := 1, result := none }, none] = .error ()
  ∧ withBootstrapAdds [some { ident := 1, result := none }, none]
      = [{ ident := 1, result := none }] := by
  have h := c7_amended_runner_launches_every_entry
    [some { ident := 1, result := none }, none]
  exact ⟨h.2.1 (by simp), h.2.2.2 (by simp), by simpa using h.2.2.1⟩

/-- C8 fails on the code: with `WithSignalHandler` among the options the
signal-watching goroutine is armed while the options are applied, before
the bootstrap functions run, so a failing bootstrap still leaves a started
signal handler behind. -/
theorem c8_counterexample :
    ∃ out, newSquad [SquadOpt.withSignalHandler [],
        SquadOpt.withBootstrap
          [some { ident := 0, result := some (GoErr.simple "init failed") }]]
      = some out
      ∧ out.err ≠ none ∧ out.groupReturned = false ∧ out.tasksStarted = 0
      ∧ out.signalHandlerStarted = true := by
  refine ⟨{ groupReturned := false,
            err := some (GoErr.join [GoErr.simple "init failed"]),
            tasksStarted := 0, signalHandlerStarted := true }, rfl, by simp, rfl, rfl, rfl⟩

/-- C8 amended: when construction reaches a failing bootstrap, the
constructor returns the bootstrap error and no group, and no long-running
task has been started; the signal handler, however, has been started exactly
when a `WithSignalHandler` option occurs among the options (it is armed
during option application, before bootstrap runs). -/
theorem c8_amended_bootstrap_failure_is_atomic_except_signals
    (opts : List SquadOpt) (out : NewOutcome)
    (hout : newSquad opts = some out) (hfail : out.err ≠ none) :
    out.groupReturned = false ∧ out.tasksStarted = 0
  ∧ out.signalHandlerStarted = opts.any SquadOpt.isSignalHandler := by
  simp only [newSquad] at hout
  rcases hrun : onStartRun (opts.foldl applyOpt initialSquadConfig).bootstraps
    with u | e
  · rw [hrun] at hout
    simp at hout
  · rw [hrun] at hout
    simp only [Option.some_inj] at hout
    subst hout
    refine ⟨?_, rfl, ?_⟩
    · cases e with
      | none => exact absurd rfl hfail
      | some v => rfl
    · show (opts.foldl applyOpt initialSquadConfig).signalHandlerStarted
        = opts.any SquadOpt.isSignalHandler
      rw [foldl_applyOpt_signalHandler]
      rfl

/-- Witness for C8 (amended) at the counterexample's input. -/
theorem c8_witness :
    ({ groupReturned := false,
       err := some (GoErr.join [GoErr.simple "init failed"]),
       tasksStarted := 0, signalHandlerStarted := true } : NewOutcome).groupReturned
      = false
  ∧ ({ groupReturned := false,
       err := some (GoErr.join [GoErr.simple "init failed"]),
       tasksStarted := 0, signalHandlerStarted := true } : NewOutcome).signalHandlerStarted
      = [SquadOpt.withSignalHandler [],
         SquadOpt.withBootstrap
           [some { ident := 0, result := some (GoErr.simple "init failed") }]].any
          SquadOpt.isSignalHandler := by
  have h := c8_amended_bootstrap_failure_is_atomic_except_signals
    [SquadOpt.withSignalHandler [],
     SquadOpt.withBootstrap
       [some { ident := 0, result := some (GoErr.simple "init failed") }]]
    { groupReturned := false,
      err := some (GoErr.join [GoErr.simple "init failed"]),
      tasksStarted := 0, signalHandlerStarted := true }
    rfl (by simp)
  exact ⟨h.1, h.2.2⟩

end Squad
